import Mathlib

/-!
Verification development for the Mutual Fund FAQ RAG chatbot (Milestone1).

The repository ships a React frontend (`frontend/src/components/Chatbot.jsx`,
`MessageList.jsx`, `services/api.js`) together with documentation of a
FastAPI backend whose core is a retrieval-and-grounding pipeline
(EmbeddingService, VectorStore, SchemeMatcher, QueryProcessor, RAGRetriever,
ResponseGenerator).  The backend source itself is not part of the checked-in
tree, so the core pipeline below is modelled from the specification, while
the frontend components are embedded directly from the JSX/JS sources.
-/

set_option linter.unusedVariables false

/-- Classification of a query, per the QueryProcessor design. -/
inductive QueryType
  | specific_fund
  | category_query
  | general
deriving DecidableEq, Repr

/-- Modelled from the spec: a Fact is an atomic sourced datum about a fund
scheme; `source_url` is non-null for any FundFact surfaced to a caller, so it is
a plain `String` here.  The fact's value is carried along as part of the
document metadata because the extractive fallback of the ResponseGenerator
needs the literal value. -/
structure FundFact where
  scheme_name : String
  fact_type : String
  value : String
  source_url : String
  last_updated : String
deriving DecidableEq, Repr

/-- Modelled from the spec: a Document stored in the VectorStore — an id,
an embedding vector, and the fact metadata. -/
structure Doc where
  document_id : Nat
  vector : List Int
  metadata : FundFact
deriving DecidableEq, Repr

/-- Modelled from the spec: the VectorStore index state, a sequence of
documents. -/
abbrev VectorStore := List Doc

/-- Modelled from the spec: `upsert(document_id, vector, metadata)` —
re-upserting the same id replaces the prior vector/metadata without
duplicating entries; a fresh id is appended. -/
def upsert (s : VectorStore) (id : Nat) (v : List Int) (m : FundFact) : VectorStore :=
  if s.any (fun d => d.document_id == id) then
    s.map (fun d => if d.document_id == id then ⟨id, v, m⟩ else d)
  else
    s ++ [⟨id, v, m⟩]

/-- Inner product of two integer vectors, the similarity score used by the
modelled VectorStore (the spec permits "cosine or equivalent"). -/
def dot : List Int → List Int → Int
  | a :: as, b :: bs => a * b + dot as bs
  | _, _ => 0

/-- One search result: document id, similarity score, and metadata. -/
structure SearchHit where
  document_id : Nat
  score : Int
  metadata : FundFact
deriving DecidableEq, Repr

/-- Ranking relation on search hits: descending similarity score, ties
broken by ascending document id. -/
def hitRank (a b : SearchHit) : Prop :=
  b.score < a.score ∨ (a.score = b.score ∧ a.document_id ≤ b.document_id)

instance : DecidableRel hitRank := fun a b => by
  unfold hitRank; infer_instance

instance : IsTotal SearchHit hitRank where
  total a b := by
    unfold hitRank
    rcases lt_trichotomy a.score b.score with h | h | h
    · exact Or.inr (Or.inl h)
    · rcases Nat.le_total a.document_id b.document_id with h' | h'
      · exact Or.inl (Or.inr ⟨h, h'⟩)
      · exact Or.inr (Or.inr ⟨h.symm, h'⟩)
    · exact Or.inl (Or.inl h)

instance : IsTrans SearchHit hitRank where
  trans a b c hab hbc := by
    unfold hitRank at *
    rcases hab with h | ⟨h1, h2⟩ <;> rcases hbc with h' | ⟨h1', h2'⟩
    · exact Or.inl (h'.trans h)
    · exact Or.inl (h1' ▸ h)
    · exact Or.inl (h1 ▸ h')
    · exact Or.inr ⟨h1.trans h1', h2.trans h2'⟩

/-- Modelled from the spec: `search(query_vector, k)` — score every
document, order by descending similarity with ties broken by ascending
document id, and return the first `k`.  An empty index yields `[]`. -/
def search (s : VectorStore) (q : List Int) (k : Nat) : List SearchHit :=
  (List.insertionSort hitRank
    (s.map fun d => ⟨d.document_id, dot q d.vector, d.metadata⟩)).take k

/-- Lower-case an alphanumeric character, turn everything else into a
space — the normalization step of the modelled tokenizer. -/
def normalizeChar (c : Char) : Char :=
  if c.isAlphanum then c.toLower else ' '

/-- Split a normalized character list into words, accumulating the current
word in reverse. -/
def wordsAux : List Char → List Char → List String
  | [], acc => if acc.isEmpty then [] else [String.mk acc.reverse]
  | c :: cs, acc =>
      if c = ' ' then
        if acc.isEmpty then wordsAux cs []
        else String.mk acc.reverse :: wordsAux cs []
      else wordsAux cs (c :: acc)

/-- Tokenize a string: case-fold, strip punctuation, split on whitespace. -/
def tokens (s : String) : List String :=
  wordsAux (s.toList.map normalizeChar) []

/-- Fixed token vocabulary of the modelled embedding; its length is the
fixed embedding dimension shared by corpus and queries. -/
def vocab : List String :=
  ["what", "is", "the", "of", "expense", "ratio", "exit", "load",
   "minimum", "sip", "amount", "lumpsum", "lock", "in", "period",
   "benchmark", "nav", "rating", "icici", "prudential", "large", "cap",
   "midcap", "fund", "0", "85", "1", "05", "100"]

/-- Modelled from the spec: `EmbeddingService.encode(text) -> vector`.  The
real service wraps an external sentence-transformer model; the spec requires
only that encoding is deterministic for a fixed model and of fixed
dimension, so it is modelled as a deterministic bag-of-words count over a
fixed vocabulary. -/
def encode (s : String) : List Int :=
  vocab.map (fun w => ((tokens s).count w : Int))

/-- One row update of the Levenshtein dynamic program: `pdiag :: prest` is
the previous row aligned with `ys`, `left` is the already-computed cell to
the left in the new row. -/
def levStep (x : Char) : List Char → List Nat → Nat → List Nat
  | y :: ys, pdiag :: prest, left =>
      let pup := prest.headD (pdiag + 1)
      let cur := min (pdiag + (if x = y then 0 else 1)) (min (pup + 1) (left + 1))
      cur :: levStep x ys prest cur
  | _, _, _ => []

/-- Full Levenshtein dynamic program: fold the rows over `xs`, starting
from the row `[0, 1, ..., |ys|]`. -/
def levRows (xs ys : List Char) : List Nat :=
  xs.foldl
    (fun row x => (row.headD 0 + 1) :: levStep x ys row (row.headD 0 + 1))
    (List.range (ys.length + 1))

/-- Edit distance between two strings (unit-cost Levenshtein). -/
def editDistance (a b : String) : Nat :=
  (levRows a.toList b.toList).getLastD 0

/-- Modelled from the spec: the SchemeMatcher collapses known abbreviation
variants during normalization. -/
def expandAbbrev (w : String) : String :=
  if w = "pru" then "prudential" else w

/-- Modelled from the spec: SchemeMatcher name normalization — case-fold,
strip punctuation, collapse known abbreviation variants. -/
def normalizeName (s : String) : String :=
  String.intercalate " " ((tokens s).map expandAbbrev)

/-- Edit distance between the normalized candidate and a known name. -/
def matcherScore (cand known : String) : Nat :=
  editDistance (normalizeName cand) (normalizeName known)

/-- Modelled from the spec: `SchemeMatcher.match(candidate_text,
known_names)` — the best-matching known name, accepted only when its
normalized edit distance is within the configured bound; ties broken by
smallest edit distance, then alphabetical order. -/
def schemeMatch (cand : String) (known : List String) (maxDist : Nat) : Option String :=
  let best := known.foldl
    (fun acc n =>
      match acc with
      | none => some n
      | some m =>
          if matcherScore cand n < matcherScore cand m
              ∨ (matcherScore cand n = matcherScore cand m ∧ n < m) then
            some n
          else some m)
    none
  match best with
  | some m => if matcherScore cand m ≤ maxDist then some m else none
  | none => none

/-- Modelled from the spec: a processed Query — raw text, normalized text,
optional extracted scheme name, optional extracted fact-type intent, and
the classified query type. -/
structure Query where
  raw : String
  normalized : String
  scheme_candidate : Option String
  fact_intent : Option String
  query_type : QueryType
deriving DecidableEq, Repr

/-- The fixed fact-type vocabulary of the data model. -/
def factTypeVocab : List String :=
  ["expense_ratio", "exit_load", "min_sip", "min_lumpsum",
   "lock_in_period", "benchmark", "nav", "rating"]

/-- Natural-language keyword phrase for each fact type, used both in
document texts and in fact-type intent extraction. -/
def factTypeKeyword (ft : String) : String :=
  if ft = "expense_ratio" then "expense ratio"
  else if ft = "exit_load" then "exit load"
  else if ft = "min_sip" then "minimum sip amount"
  else if ft = "min_lumpsum" then "minimum lumpsum"
  else if ft = "lock_in_period" then "lock in period"
  else ft

/-- Every token of `needle` occurs among the tokens of `hay`. -/
def containsAllTokens (hay needle : String) : Bool :=
  (tokens needle).all (fun w => (tokens hay).contains w)

/-- Modelled from the spec: the QueryProcessor — normalizes the raw query,
extracts a candidate scheme name (a registered name all of whose tokens
occur in the query) and a fact-type intent (by keyword presence), and
classifies the query, defaulting to `general` when no scheme is found. -/
def processQuery (registry : List String) (raw : String) : Query :=
  let sc := registry.find? (fun n => containsAllTokens raw n)
  let fi := factTypeVocab.find? (fun ft => containsAllTokens raw (factTypeKeyword ft))
  { raw := raw
    normalized := String.intercalate " " (tokens raw)
    scheme_candidate := sc
    fact_intent := fi
    query_type := if sc.isSome then .specific_fund else .general }

/-- Which retrieval strategy produced a result. -/
inductive Strategy
  | vector
  | fuzzy
deriving DecidableEq, Repr

/-- Modelled from the spec: the tagged retrieval result — `found` with the
producing strategy and a ranked hit list, or an explicit `notFound`. -/
inductive RetrievalResult
  | found (via : Strategy) (hits : List SearchHit)
  | notFound
deriving DecidableEq, Repr

/-- Retriever configuration: top-K, the vector-similarity acceptance
threshold, and the fuzzy-match acceptance bound (the spec leaves the
numeric values to external configuration). -/
structure RagConfig where
  topK : Nat
  simThreshold : Int
  fuzzyMaxDist : Nat
deriving Repr

/-- Modelled from the spec: the fuzzy fallback path — match the extracted
candidate scheme name with the SchemeMatcher, collect that scheme's facts,
prefer an exact fact-type intent match over a broader scheme-only match,
and return `notFound` when nothing survives. -/
def fuzzyRetrieve (cfg : RagConfig) (factStore : List FundFact)
    (registry : List String) (q : Query) : RetrievalResult :=
  match q.scheme_candidate with
  | none => .notFound
  | some cand =>
      match schemeMatch cand registry cfg.fuzzyMaxDist with
      | none => .notFound
      | some name =>
          let schemeFacts : List FundFact := factStore.filter (fun f => f.scheme_name == name)
          let chosen : List FundFact :=
            match q.fact_intent with
            | some ft =>
                let exact := schemeFacts.filter (fun f => f.fact_type == ft)
                if exact.isEmpty then schemeFacts else exact
            | none => schemeFacts
          if chosen.isEmpty then .notFound
          else .found .fuzzy (chosen.map (fun f => { document_id := 0, score := 0, metadata := f }))

/-- Modelled from the spec: `RAGRetriever.retrieve(query)` — encode the
query, search the vector index for the top-K candidates, accept them as-is
(tag `vector`) when the best score meets the acceptance threshold, fall
back to the fuzzy path otherwise, and return an explicit `notFound` when
both strategies yield nothing. -/
def retrieve (cfg : RagConfig) (store : VectorStore) (factStore : List FundFact)
    (registry : List String) (q : Query) : RetrievalResult :=
  match search store (encode q.normalized) cfg.topK with
  | [] => fuzzyRetrieve cfg factStore registry q
  | h :: t =>
      if cfg.simThreshold ≤ h.score then .found .vector (h :: t)
      else fuzzyRetrieve cfg factStore registry q

/-- Modelled from the spec: the Answer record returned by the boundary
operation — generated text plus attribution fields and the query type. -/
structure Answer where
  answer : String
  source_url : Option String
  scheme_name : Option String
  fact_type : Option String
  query_type : QueryType
deriving DecidableEq, Repr

/-- One line of the generation context, built from a retrieved fact. -/
def contextLine (h : SearchHit) : String :=
  h.metadata.scheme_name ++ " | " ++ h.metadata.fact_type ++ " | "
    ++ h.metadata.value ++ " | " ++ h.metadata.source_url

/-- Context block assembled from the retrieved facts. -/
def buildContext (hits : List SearchHit) : String :=
  String.intercalate "\n" (hits.map contextLine)

/-- Extractive fallback text, built directly from the top fact's literal
value, used when the generative call fails. -/
def extractiveText (f : FundFact) : String :=
  "The " ++ factTypeKeyword f.fact_type ++ " of " ++ f.scheme_name
    ++ " is " ++ f.value ++ "."

/-- The canned text returned when retrieval found nothing. -/
def noInfoText : String :=
  "No information available for your query."

/-- Modelled from the spec: `ResponseGenerator.compose(query, result)`.
The language model is an injected capability `(context, query) -> completion
or failure detail`.  On an empty retrieval result the generative call is
skipped and a canned Answer with null attribution is returned; otherwise the
attribution fields are taken directly from the single highest-ranked fact,
never from the generated text, and a failed generation is replaced by the
extractive fallback. -/
def compose (llm : String → String → Except String String) (q : Query)
    (r : RetrievalResult) : Answer :=
  match r with
  | .notFound =>
      { answer := noInfoText, source_url := none, scheme_name := none
        fact_type := none, query_type := q.query_type }
  | .found _ [] =>
      { answer := noInfoText, source_url := none, scheme_name := none
        fact_type := none, query_type := q.query_type }
  | .found _ (top :: rest) =>
      let text :=
        match llm (buildContext (top :: rest)) q.raw with
        | .ok t => t
        | .error _ => extractiveText top.metadata
      { answer := text
        source_url := some top.metadata.source_url
        scheme_name := some top.metadata.scheme_name
        fact_type := some top.metadata.fact_type
        query_type := q.query_type }

/-- Modelled from the spec: the boundary operation
`answer(query: text)` — process the query, retrieve, compose. -/
def answerQuery (llm : String → String → Except String String)
    (cfg : RagConfig) (store : VectorStore) (factStore : List FundFact)
    (registry : List String) (raw : String) : Answer :=
  let q := processQuery registry raw
  compose llm q (retrieve cfg store factStore registry q)

/-- The expense-ratio fact of the spec's end-to-end example. -/
def icpLargeCapExpense : FundFact :=
  { scheme_name := "ICICI Prudential Large Cap Fund"
    fact_type := "expense_ratio"
    value := "0.85%"
    source_url := "https://groww.in/mutual-funds/icici-prudential-large-cap-fund-direct-growth"
    last_updated := "2025-01-16" }

/-- A second fact of the same scheme, for non-trivial ranking. -/
def icpLargeCapExit : FundFact :=
  { scheme_name := "ICICI Prudential Large Cap Fund"
    fact_type := "exit_load"
    value := "1%"
    source_url := "https://groww.in/mutual-funds/icici-prudential-large-cap-fund-direct-growth"
    last_updated := "2025-01-16" }

/-- A fact of a second scheme sharing most name tokens with the first. -/
def icpMidcapExpense : FundFact :=
  { scheme_name := "ICICI Prudential Midcap Fund"
    fact_type := "expense_ratio"
    value := "1.05%"
    source_url := "https://groww.in/mutual-funds/icici-prudential-midcap-fund-direct-growth"
    last_updated := "2025-01-16" }

/-- A fourth fact with a multi-word fact-type keyword. -/
def icpMidcapSip : FundFact :=
  { scheme_name := "ICICI Prudential Midcap Fund"
    fact_type := "min_sip"
    value := "100"
    source_url := "https://groww.in/mutual-funds/icici-prudential-midcap-fund-direct-growth"
    last_updated := "2025-01-16" }

/-- The modelled fact corpus. -/
def corpus : List FundFact :=
  [icpLargeCapExpense, icpLargeCapExit, icpMidcapExpense, icpMidcapSip]

/-- The scheme-name registry of the modelled corpus. -/
def registry : List String :=
  ["ICICI Prudential Large Cap Fund", "ICICI Prudential Midcap Fund"]

/-- Text of the searchable document derived from a fact. -/
def docText (f : FundFact) : String :=
  factTypeKeyword f.fact_type ++ " of " ++ f.scheme_name ++ " is " ++ f.value

/-- Build the vector index by upserting one document per fact, ids in
corpus order — the offline indexing job of the spec. -/
def buildIndex (facts : List FundFact) : VectorStore :=
  facts.enum.foldl (fun s p => upsert s p.1 (encode (docText p.2)) p.2) []

/-- The index over the modelled corpus. -/
def corpusIndex : VectorStore := buildIndex corpus

/-- Default retriever configuration (top-5 per the spec; the two
thresholds are external configuration). -/
def defaultConfig : RagConfig :=
  { topK := 5, simThreshold := 3, fuzzyMaxDist := 3 }

/-- A query naming a fact's scheme exactly and stating its unambiguous
fact-type keyword. -/
def canonicalQuery (f : FundFact) : String :=
  "What is the " ++ factTypeKeyword f.fact_type ++ " of " ++ f.scheme_name ++ "?"

/-- Retrieval over the modelled corpus for a fact's canonical query. -/
def retrieveFor (f : FundFact) : RetrievalResult :=
  retrieve defaultConfig corpusIndex corpus registry
    (processQuery registry (canonicalQuery f))

/-- Does a retrieval result carry the given fact on top, with the vector
tag? -/
def topIsFact (f : FundFact) (r : RetrievalResult) : Bool :=
  match r with
  | .found .vector (h :: _) => h.metadata == f
  | _ => false

/-- Response body of a successful `POST /api/chat`, as consumed by
`sendMessage` in `frontend/src/services/api.js` (it returns
`response.data` unchanged). -/
structure ChatResponse where
  answer : String
  source_url : Option String
  scheme_name : Option String
  fact_type : Option String
  query_type : String
deriving DecidableEq, Repr

/-- A chat message as kept in the `messages` state of `Chatbot.jsx`; the
user messages carry no attribution keys, modelled as `none`. -/
structure Message where
  role : String
  content : String
  sourceUrl : Option String
  schemeName : Option String
  factType : Option String
deriving DecidableEq, Repr

/-- The assistant message appended by `handleSend` on a successful call
(`Chatbot.jsx` lines 39–45): content from `response.answer`, attribution
from `response.source_url` / `scheme_name` / `fact_type`. -/
def assistantMessageOfResponse (r : ChatResponse) : Message :=
  { role := "assistant", content := r.answer, sourceUrl := r.source_url
    schemeName := r.scheme_name, factType := r.fact_type }

/-- The fixed error text appended by `handleSend` when `sendMessage`
throws (`Chatbot.jsx` line 49). -/
def chatErrorText : String :=
  "Sorry, I encountered an error. Please try again or check if the backend server is running."

/-- The assistant message appended on a failed call: fixed error text,
null `sourceUrl`. -/
def errorReplyMessage : Message :=
  { role := "assistant", content := chatErrorText, sourceUrl := none
    schemeName := none, factType := none }

/-- The state of the `Chatbot` component touched by `handleSend`: the
message list, the input box value, and the loading flag. -/
structure ChatState where
  messages : List Message
  input : String
  isLoading : Bool
deriving DecidableEq, Repr

/-- Outcome of the awaited `sendMessage` call: a parsed response, or a
thrown error. -/
inductive SendOutcome
  | success (r : ChatResponse)
  | failure
deriving DecidableEq, Repr

/-- Drop leading whitespace characters from a character list. -/
def dropLeadingSpaces : List Char → List Char
  | [] => []
  | c :: cs => if c.isWhitespace then dropLeadingSpaces cs else c :: cs

/-- The JavaScript `String.prototype.trim()`: remove whitespace from both
ends of the string. -/
def jsTrim (s : String) : String :=
  String.mk (dropLeadingSpaces (dropLeadingSpaces s.toList.reverse).reverse)

/-- The send button's `disabled` condition (`Chatbot.jsx` line 117):
`!input.trim() || isLoading` — a trimmed-empty string is falsy. -/
def sendDisabled (st : ChatState) : Bool :=
  (jsTrim st.input == "") || st.isLoading

/-- One completed invocation of `handleSend` (`Chatbot.jsx` lines 28–57),
as a function of the pre-state and of the outcome of the backend call.  It
returns the post-state together with a flag telling whether a request was
sent.  The guard `if (!input.trim() || isLoading) return` makes the call a
no-op; otherwise the trimmed user message and one assistant message are
appended, the input is cleared and, in the `finally` block, the loading
flag is reset. -/
def handleSend (st : ChatState) (outcome : SendOutcome) : ChatState × Bool :=
  if (jsTrim st.input == "") || st.isLoading then (st, false)
  else
    let userMsg : Message :=
      { role := "user", content := jsTrim st.input, sourceUrl := none
        schemeName := none, factType := none }
    let reply : Message :=
      match outcome with
      | .success r => assistantMessageOfResponse r
      | .failure => errorReplyMessage
    ({ messages := st.messages ++ [userMsg, reply], input := "", isLoading := false }, true)

/-- The axios client timeout configured in
`frontend/src/services/api.js`: 30000 milliseconds. -/
def apiTimeoutMs : Nat := 30000

/-- The vector stage yields no acceptable candidate: every returned head
hit falls below the acceptance threshold (vacuously so on an empty result). -/
def vectorStageRejects (cfg : RagConfig) (store : VectorStore) (q : Query) : Prop :=
  ∀ h t, search store (encode q.normalized) cfg.topK = h :: t →
    h.score < cfg.simThreshold

/-- Helper: the empty index searches to the empty list. -/
theorem search_nil (qv : List Int) (k : Nat) : search ([] : VectorStore) qv k = [] := by
  simp [search]

/-- Helper: on an empty index the retriever always takes the fallback
path. -/
theorem retrieve_nil_eq_fuzzy (cfg : RagConfig) (facts : List FundFact)
    (reg : List String) (q : Query) :
    retrieve cfg [] facts reg q = fuzzyRetrieve cfg facts reg q := by
  unfold retrieve
  rw [search_nil]

/-- Helper: with an empty fact store the fuzzy path finds nothing. -/
theorem fuzzy_empty_store (cfg : RagConfig) (reg : List String) (q : Query) :
    fuzzyRetrieve cfg [] reg q = .notFound := by
  unfold fuzzyRetrieve
  cases hq : q.scheme_candidate with
  | none => rfl
  | some cand =>
      dsimp only
      cases hm : schemeMatch cand reg cfg.fuzzyMaxDist with
      | none => rfl
      | some name =>
          dsimp only
          cases q.fact_intent <;> rfl

/-- C8: on an empty vector index, `VectorStore.search` returns the empty
list (and, being a total function, never raises); `retrieve` always falls
back to the fuzzy strategy because the vector stage yields no acceptable
candidate; and with the fact store in sync (hence also empty) `retrieve`
returns the explicit `notFound` result on every query. -/
theorem claim8_empty_index :
    (∀ (qv : List Int) (k : Nat), search ([] : VectorStore) qv k = [])
    ∧ (∀ (cfg : RagConfig) (facts : List FundFact) (reg : List String) (q : Query),
        retrieve cfg [] facts reg q = fuzzyRetrieve cfg facts reg q)
    ∧ (∀ (cfg : RagConfig) (reg : List String) (q : Query),
        retrieve cfg [] [] reg q = RetrievalResult.notFound) :=
  ⟨search_nil, retrieve_nil_eq_fuzzy, fun cfg reg q =>
    (retrieve_nil_eq_fuzzy cfg [] reg q).trans (fuzzy_empty_store cfg reg q)⟩

/-- C6: `VectorStore.search` returns a list ordered by the ranking
relation — descending similarity score, ties broken by ascending document
id — and, being a pure function of the index and the query, two runs of
the same query against the unchanged index return identical ordered
results. -/
theorem claim6_search_sorted_deterministic (s : VectorStore) (qv : List Int) (k : Nat) :
    List.Sorted hitRank (search s qv k) ∧ search s qv k = search s qv k :=
  ⟨List.Pairwise.sublist (List.take_sublist k _)
    (List.sorted_insertionSort hitRank _), rfl⟩

/-- Helper: whenever `topIsFact f r` holds, composing over `r` attributes
the Answer to `f`, whatever the language model returns. -/
theorem attr_of_topIsFact (llm : String → String → Except String String)
    (q : Query) (r : RetrievalResult) (f : FundFact)
    (h : topIsFact f r = true) :
    (compose llm q r).source_url = some f.source_url
    ∧ (compose llm q r).scheme_name = some f.scheme_name
    ∧ (compose llm q r).fact_type = some f.fact_type := by
  cases r with
  | notFound => simp [topIsFact] at h
  | found via hits =>
      cases via with
      | fuzzy => simp [topIsFact] at h
      | vector =>
          cases hits with
          | nil => simp [topIsFact] at h
          | cons top rest =>
              have hm : top.metadata = f := by
                simpa [topIsFact] using h
              subst hm
              exact ⟨rfl, rfl, rfl⟩

/-- C1: the attribution fields of the Answer composed from any non-empty
retrieval result are taken from the single highest-ranked fact, for every
injected language model; and end-to-end, on the modelled corpus the query
naming the ICICI Prudential Large Cap Fund and its expense-ratio fact
yields an Answer whose attribution fields exactly match that fact. -/
theorem claim1_attribution_from_top_fact :
    (∀ (llm : String → String → Except String String) (q : Query)
        (via : Strategy) (top : SearchHit) (rest : List SearchHit),
      (compose llm q (.found via (top :: rest))).source_url = some top.metadata.source_url
        ∧ (compose llm q (.found via (top :: rest))).scheme_name = some top.metadata.scheme_name
        ∧ (compose llm q (.found via (top :: rest))).fact_type = some top.metadata.fact_type)
    ∧ (∀ llm : String → String → Except String String,
      (answerQuery llm defaultConfig corpusIndex corpus registry
          (canonicalQuery icpLargeCapExpense)).source_url
            = some icpLargeCapExpense.source_url
        ∧ (answerQuery llm defaultConfig corpusIndex corpus registry
            (canonicalQuery icpLargeCapExpense)).scheme_name
            = some icpLargeCapExpense.scheme_name
        ∧ (answerQuery llm defaultConfig corpusIndex corpus registry
            (canonicalQuery icpLargeCapExpense)).fact_type
            = some icpLargeCapExpense.fact_type) := by
  constructor
  · intro llm q via top rest
    exact ⟨rfl, rfl, rfl⟩
  · intro llm
    exact attr_of_topIsFact llm
      (processQuery registry (canonicalQuery icpLargeCapExpense))
      (retrieveFor icpLargeCapExpense) icpLargeCapExpense (by decide)

/-- C2: the retriever accepts the vector-search results as-is with the
`vector` tag exactly when the best score meets the acceptance threshold,
falls back to the fuzzy path otherwise (also when the vector search comes
back empty), the fuzzy path only ever produces a `fuzzy`-tagged result or
`notFound`, and for every (scheme, fact_type) pair of the modelled corpus
the canonical query naming the scheme exactly with the unambiguous
fact-type keyword retrieves that fact as the top result with the vector
tag. -/
theorem claim2_confidence_gate :
    (∀ (cfg : RagConfig) (store : VectorStore) (facts : List FundFact)
        (reg : List String) (q : Query) (h : SearchHit) (t : List SearchHit),
      search store (encode q.normalized) cfg.topK = h :: t →
        ((cfg.simThreshold ≤ h.score →
            retrieve cfg store facts reg q = .found .vector (h :: t))
          ∧ (h.score < cfg.simThreshold →
            retrieve cfg store facts reg q = fuzzyRetrieve cfg facts reg q)))
    ∧ (∀ (cfg : RagConfig) (store : VectorStore) (facts : List FundFact)
        (reg : List String) (q : Query),
      search store (encode q.normalized) cfg.topK = [] →
        retrieve cfg store facts reg q = fuzzyRetrieve cfg facts reg q)
    ∧ (∀ (cfg : RagConfig) (facts : List FundFact) (reg : List String) (q : Query),
      fuzzyRetrieve cfg facts reg q = .notFound
        ∨ ∃ hs, fuzzyRetrieve cfg facts reg q = .found .fuzzy hs)
    ∧ corpus.all (fun f => topIsFact f (retrieveFor f)) = true := by
  refine ⟨?_, ?_, ?_, by decide⟩
  · intro cfg store facts reg q h t hsearch
    constructor
    · intro hge
      unfold retrieve
      rw [hsearch]
      dsimp only
      rw [if_pos hge]
    · intro hlt
      unfold retrieve
      rw [hsearch]
      dsimp only
      rw [if_neg (not_le.mpr hlt)]
  · intro cfg store facts reg q hsearch
    unfold retrieve
    rw [hsearch]
  · intro cfg facts reg q
    unfold fuzzyRetrieve
    cases q.scheme_candidate with
    | none => exact Or.inl rfl
    | some cand =>
        dsimp only
        cases schemeMatch cand reg cfg.fuzzyMaxDist with
        | none => exact Or.inl rfl
        | some name =>
            dsimp only
            split
            · exact Or.inl rfl
            · exact Or.inr ⟨_, rfl⟩

/-- Witness for C2: a one-document index whose single hit meets the
threshold is accepted as-is with the vector tag, and an empty vector
search forces the fuzzy fallback. -/
theorem claim2_confidence_gate_witness :
    retrieve { topK := 5, simThreshold := 1, fuzzyMaxDist := 3 }
        [{ document_id := 0, vector := encode "nav", metadata := icpLargeCapExpense }]
        corpus registry
        { raw := "nav", normalized := "nav", scheme_candidate := none,
          fact_intent := none, query_type := .general }
      = .found .vector [{ document_id := 0, score := 1, metadata := icpLargeCapExpense }]
    ∧ retrieve defaultConfig [] corpus registry
        { raw := "nav", normalized := "nav", scheme_candidate := none,
          fact_intent := none, query_type := .general }
      = fuzzyRetrieve defaultConfig corpus registry
        { raw := "nav", normalized := "nav", scheme_candidate := none,
          fact_intent := none, query_type := .general } :=
  ⟨(claim2_confidence_gate.1 { topK := 5, simThreshold := 1, fuzzyMaxDist := 3 }
      [{ document_id := 0, vector := encode "nav", metadata := icpLargeCapExpense }]
      corpus registry
      { raw := "nav", normalized := "nav", scheme_candidate := none,
        fact_intent := none, query_type := .general }
      { document_id := 0, score := 1, metadata := icpLargeCapExpense } []
      (by decide)).1 (by decide),
   claim2_confidence_gate.2.1 defaultConfig [] corpus registry
      { raw := "nav", normalized := "nav", scheme_candidate := none,
        fact_intent := none, query_type := .general }
      (by decide)⟩

/-- C3: when the vector stage yields no acceptable candidate and the fuzzy
path finds nothing, `retrieve` returns the explicit `notFound` result (it
is a total function, so it never raises); and composing over an empty
retrieval result skips the generative call — the Answer is the same canned
"no information" record, with null attribution fields, for every injected
language model. -/
theorem claim3_notfound_and_canned :
    (∀ (cfg : RagConfig) (store : VectorStore) (facts : List FundFact)
        (reg : List String) (q : Query),
      vectorStageRejects cfg store q →
      fuzzyRetrieve cfg facts reg q = .notFound →
      retrieve cfg store facts reg q = .notFound)
    ∧ (∀ (llm llm' : String → String → Except String String) (q : Query),
      compose llm q .notFound
          = { answer := noInfoText, source_url := none, scheme_name := none,
              fact_type := none, query_type := q.query_type }
        ∧ compose llm q .notFound = compose llm' q .notFound) := by
  constructor
  · intro cfg store facts reg q hrej hfuzzy
    unfold retrieve
    cases hs : search store (encode q.normalized) cfg.topK with
    | nil => exact hfuzzy
    | cons h t =>
        dsimp only
        rw [if_neg (not_le.mpr (hrej h t hs))]
        exact hfuzzy
  · intro llm llm' q
    exact ⟨rfl, rfl⟩

/-- Witness for C3: on an empty index and empty fact store the retriever
returns `notFound`, and composing the empty result with a hallucinating
language model still yields the canned Answer with null attribution. -/
theorem claim3_notfound_and_canned_witness :
    retrieve defaultConfig [] [] registry
        { raw := "nav", normalized := "nav", scheme_candidate := none,
          fact_intent := none, query_type := .general }
      = RetrievalResult.notFound
    ∧ compose (fun _ _ => Except.ok "fabricated text") 
        { raw := "nav", normalized := "nav", scheme_candidate := none,
          fact_intent := none, query_type := .general }
        RetrievalResult.notFound
      = { answer := noInfoText, source_url := none, scheme_name := none,
          fact_type := none, query_type := QueryType.general } :=
  ⟨claim3_notfound_and_canned.1 defaultConfig [] [] registry
      { raw := "nav", normalized := "nav", scheme_candidate := none,
        fact_intent := none, query_type := .general }
      (by intro h t hht; rw [search_nil] at hht; exact List.noConfusion hht)
      (by decide),
   (claim3_notfound_and_canned.2 (fun _ _ => Except.ok "fabricated text")
      (fun _ _ => Except.ok "fabricated text")
      { raw := "nav", normalized := "nav", scheme_candidate := none,
        fact_intent := none, query_type := .general }).1⟩

/-- C5: when the injected language-model call fails (with any internal
error detail `e`), the composed Answer's text is the extractive fallback
built from the top retrieved fact — in particular it contains the fact's
literal value as a substring — and the error detail `e` does not appear in
the result, which is the same for every `e`; the frontend client bounds
the call with a 30000 ms (~30 s) timeout. -/
theorem claim5_llm_failure_extractive (llm : String → String → Except String String)
    (q : Query) (via : Strategy) (top : SearchHit) (rest : List SearchHit) (e : String)
    (hfail : llm (buildContext (top :: rest)) q.raw = Except.error e) :
    (compose llm q (.found via (top :: rest))).answer = extractiveText top.metadata
    ∧ (∃ p s, (compose llm q (.found via (top :: rest))).answer
        = p ++ top.metadata.value ++ s)
    ∧ apiTimeoutMs = 30000 := by
  have hans : (compose llm q (.found via (top :: rest))).answer
      = extractiveText top.metadata := by
    unfold compose
    dsimp only
    rw [hfail]
  refine ⟨hans, ⟨"The " ++ factTypeKeyword top.metadata.fact_type ++ " of "
      ++ top.metadata.scheme_name ++ " is ", ".", ?_⟩, rfl⟩
  rw [hans]
  rfl

/-- Witness for C5: a language model failing with a detailed internal
error still produces the extractive Answer for the expense-ratio fact. -/
theorem claim5_llm_failure_extractive_witness :
    (compose (fun _ _ => Except.error "deadline exceeded: internal trace")
        { raw := "nav", normalized := "nav", scheme_candidate := none,
          fact_intent := none, query_type := .general }
        (.found .vector [{ document_id := 0, score := 9, metadata := icpLargeCapExpense }])).answer
      = extractiveText icpLargeCapExpense
    ∧ (∃ p s,
        (compose (fun _ _ => Except.error "deadline exceeded: internal trace")
          { raw := "nav", normalized := "nav", scheme_candidate := none,
            fact_intent := none, query_type := .general }
          (.found .vector [{ document_id := 0, score := 9, metadata := icpLargeCapExpense }])).answer
        = p ++ icpLargeCapExpense.value ++ s)
    ∧ apiTimeoutMs = 30000 :=
  claim5_llm_failure_extractive
    (fun _ _ => Except.error "deadline exceeded: internal trace")
    { raw := "nav", normalized := "nav", scheme_candidate := none,
      fact_intent := none, query_type := .general }
    .vector { document_id := 0, score := 9, metadata := icpLargeCapExpense } []
    "deadline exceeded: internal trace" rfl

/-- C4 counterexample: two successful chat responses that differ only in
`query_type` produce the very same assistant message in `handleSend`
(`Chatbot.jsx` lines 39–45) — the client never reads `query_type`, so it
does not consume all five fields of the response record. -/
theorem claim4_counterexample :
    assistantMessageOfResponse
        { answer := "The expense ratio is 0.85%.", source_url := none,
          scheme_name := none, fact_type := none, query_type := "specific_fund" }
      = assistantMessageOfResponse
        { answer := "The expense ratio is 0.85%.", source_url := none,
          scheme_name := none, fact_type := none, query_type := "general" }
    ∧ ("specific_fund" : String) ≠ "general" :=
  ⟨rfl, by decide⟩

/-- C4 (amended): the boundary `answer` operation returns a record with
exactly the fields answer, source_url, scheme_name, fact_type and
query_type (the record is built from and determined by those five
projections), and the client consumes precisely the fields answer,
source_url, scheme_name and fact_type of a successful response — the
assistant message is determined by those four fields and genuinely depends
on each, while query_type is not read. -/
theorem claim4_boundary_record_and_client :
    (∀ (t : String) (su sn ft : Option String) (qt : QueryType),
      (Answer.mk t su sn ft qt).answer = t
        ∧ (Answer.mk t su sn ft qt).source_url = su
        ∧ (Answer.mk t su sn ft qt).scheme_name = sn
        ∧ (Answer.mk t su sn ft qt).fact_type = ft
        ∧ (Answer.mk t su sn ft qt).query_type = qt)
    ∧ (∀ a b : Answer, a.answer = b.answer → a.source_url = b.source_url →
        a.scheme_name = b.scheme_name → a.fact_type = b.fact_type →
        a.query_type = b.query_type → a = b)
    ∧ (∀ r r' : ChatResponse, r.answer = r'.answer → r.source_url = r'.source_url →
        r.scheme_name = r'.scheme_name → r.fact_type = r'.fact_type →
        assistantMessageOfResponse r = assistantMessageOfResponse r')
    ∧ (∃ r r' : ChatResponse,
        (∀ x, assistantMessageOfResponse x
          = { role := "assistant", content := x.answer, sourceUrl := x.source_url,
              schemeName := x.scheme_name, factType := x.fact_type })
        ∧ assistantMessageOfResponse r ≠ assistantMessageOfResponse r'
        ∧ r.source_url = r'.source_url ∧ r.scheme_name = r'.scheme_name
        ∧ r.fact_type = r'.fact_type ∧ r.query_type = r'.query_type) := by
  refine ⟨?_, ?_, ?_, ?_⟩
  · intro t su sn ft qt
    exact ⟨rfl, rfl, rfl, rfl, rfl⟩
  · intro a b h1 h2 h3 h4 h5
    cases a
    cases b
    simp_all
  · intro r r' h1 h2 h3 h4
    cases r
    cases r'
    simp_all [assistantMessageOfResponse]
  · exact ⟨ChatResponse.mk "a" none none none "q",
      ChatResponse.mk "b" none none none "q",
      fun x => rfl, by decide, rfl, rfl, rfl, rfl⟩

/-- Witness for C4 (amended): the record projections and the client
determinacy at concrete records. -/
theorem claim4_boundary_record_and_client_witness :
    (Answer.mk "hi" none none none QueryType.general).answer = "hi"
    ∧ assistantMessageOfResponse
        { answer := "a", source_url := some "u", scheme_name := none,
          fact_type := none, query_type := "specific_fund" }
      = assistantMessageOfResponse
        { answer := "a", source_url := some "u", scheme_name := none,
          fact_type := none, query_type := "general" } :=
  ⟨(claim4_boundary_record_and_client.1 "hi" none none none QueryType.general).1,
   claim4_boundary_record_and_client.2.2.1
     { answer := "a", source_url := some "u", scheme_name := none,
       fact_type := none, query_type := "specific_fund" }
     { answer := "a", source_url := some "u", scheme_name := none,
       fact_type := none, query_type := "general" } rfl rfl rfl rfl⟩

/-- Helper: after an upsert, some stored document carries the upserted
id. -/
theorem upsert_new_mem_any (s : VectorStore) (id : Nat) (v : List Int) (m : FundFact) :
    (upsert s id v m).any (fun d => d.document_id == id) = true := by
  unfold upsert
  split
  · rename_i h
    simp only [List.any_eq_true] at h ⊢
    obtain ⟨d, hd, hid⟩ := h
    exact ⟨⟨id, v, m⟩, List.mem_map.mpr ⟨d, hd, by simp [hid]⟩, by simp⟩
  · simp only [List.any_eq_true]
    exact ⟨⟨id, v, m⟩, by simp, by simp⟩

/-- Helper: the id-replacement function of `upsert` is a projection, so
mapping it twice is the same as mapping it once. -/
theorem replace_map_idem (s : VectorStore) (id : Nat) (v : List Int) (m : FundFact) :
    (s.map (fun d => if d.document_id == id then (⟨id, v, m⟩ : Doc) else d)).map
        (fun d => if d.document_id == id then (⟨id, v, m⟩ : Doc) else d)
      = s.map (fun d => if d.document_id == id then (⟨id, v, m⟩ : Doc) else d) := by
  rw [List.map_map]
  apply List.map_congr_left
  intro d hd
  by_cases hb : (d.document_id == id) = true
  · simp [Function.comp, hb]
  · simp [Function.comp, hb]

/-- Helper: mapping the id-replacement function over documents none of
which carry the id is the identity. -/
theorem map_no_match_id (s : VectorStore) (id : Nat) (v : List Int) (m : FundFact)
    (h : ∀ d ∈ s, (d.document_id == id) = false) :
    s.map (fun d => if d.document_id == id then (⟨id, v, m⟩ : Doc) else d) = s := by
  induction s with
  | nil => rfl
  | cons a t ih =>
      have ha := h a (List.mem_cons_self a t)
      simp only [List.map_cons, ha, ih (fun d hd => h d (List.mem_cons_of_mem a hd))]
      simp

/-- C7: `upsert` is idempotent — upserting the same (id, vector, metadata)
twice yields the same index state as upserting it once, hence identical
search results; the entry carrying the id after an upsert is exactly the
upserted document (any prior entry was replaced); and upserting never
introduces a duplicate id into an index whose ids were distinct. -/
theorem claim7_upsert_idempotent (s : VectorStore) (id : Nat) (v : List Int) (m : FundFact) :
    upsert (upsert s id v m) id v m = upsert s id v m
    ∧ (∀ (qv : List Int) (k : Nat),
        search (upsert (upsert s id v m) id v m) qv k = search (upsert s id v m) qv k)
    ∧ (∀ d ∈ upsert s id v m, d.document_id = id → d = ⟨id, v, m⟩)
    ∧ ((s.map Doc.document_id).Nodup → ((upsert s id v m).map Doc.document_id).Nodup) := by
  have hidem : upsert (upsert s id v m) id v m = upsert s id v m := by
    rw [upsert]
    rw [if_pos (upsert_new_mem_any s id v m)]
    unfold upsert
    split
    · exact replace_map_idem s id v m
    · rename_i h
      have hall : ∀ d ∈ s, (d.document_id == id) = false := by
        intro d hd
        cases hb : (d.document_id == id) with
        | false => rfl
        | true => exact absurd (List.any_eq_true.mpr ⟨d, hd, hb⟩) h
      rw [List.map_append, map_no_match_id s id v m hall]
      simp
  refine ⟨hidem, fun qv k => by rw [hidem], ?_, ?_⟩
  · intro d hd hdid
    unfold upsert at hd
    split at hd
    · rw [List.mem_map] at hd
      obtain ⟨d', hd', hfd⟩ := hd
      by_cases hb : (d'.document_id == id) = true
      · rw [if_pos hb] at hfd
        exact hfd.symm
      · rw [if_neg hb] at hfd
        subst hfd
        exact absurd (by simp [hdid]) hb
    · rename_i h
      rw [List.mem_append] at hd
      rcases hd with hd | hd
      · exact absurd (List.any_eq_true.mpr ⟨d, hd, by simp [hdid]⟩) h
      · simpa using hd
  · intro hn
    unfold upsert
    split
    · have hids : (s.map (fun d => if d.document_id == id then (⟨id, v, m⟩ : Doc) else d)).map
          Doc.document_id = s.map Doc.document_id := by
        rw [List.map_map]
        apply List.map_congr_left
        intro d hd
        by_cases hb : (d.document_id == id) = true
        · have hEq : d.document_id = id := by simpa using hb
          simp [Function.comp, hb, hEq]
        · simp [Function.comp, hb]
      rw [hids]
      exact hn
    · rename_i h
      have hid : id ∉ s.map Doc.document_id := by
        intro hmem
        rw [List.mem_map] at hmem
        obtain ⟨d, hd, hdi⟩ := hmem
        exact absurd (List.any_eq_true.mpr ⟨d, hd, by simp [hdi]⟩) h
      rw [List.map_append]
      simp [List.nodup_append, hn, hid]

/-- Witness for C7 at a concrete index: double upsert of a document into
the empty index equals a single upsert, the stored entry is the upserted
one, and the resulting ids are distinct. -/
theorem claim7_upsert_idempotent_witness :
    upsert (upsert [] 0 [1] icpLargeCapExpense) 0 [1] icpLargeCapExpense
      = upsert [] 0 [1] icpLargeCapExpense
    ∧ (⟨0, [1], icpLargeCapExpense⟩ : Doc) = ⟨0, [1], icpLargeCapExpense⟩
    ∧ ((upsert [] 0 [1] icpLargeCapExpense).map Doc.document_id).Nodup :=
  ⟨(claim7_upsert_idempotent [] 0 [1] icpLargeCapExpense).1,
   (claim7_upsert_idempotent [] 0 [1] icpLargeCapExpense).2.2.1
     ⟨0, [1], icpLargeCapExpense⟩ (by decide) rfl,
   (claim7_upsert_idempotent [] 0 [1] icpLargeCapExpense).2.2.2 (by simp)⟩

/-- C9: every completed invocation of `handleSend` that passes the guard
appends exactly two messages — the trimmed user message followed by one
assistant message — leaving all earlier messages untouched (the new list is
the old list plus two), and on a failed backend call the appended assistant
message is the fixed error text with a null `sourceUrl`. -/
theorem claim9_append_two_messages (st : ChatState) (outcome : SendOutcome)
    (h1 : (jsTrim st.input == "") = false) (h2 : st.isLoading = false) :
    ((handleSend st outcome).1.messages
      = st.messages
        ++ [{ role := "user", content := jsTrim st.input, sourceUrl := none,
              schemeName := none, factType := none },
            match outcome with
            | .success r => assistantMessageOfResponse r
            | .failure => errorReplyMessage])
    ∧ (handleSend st outcome).1.messages.length = st.messages.length + 2
    ∧ ((handleSend st .failure).1.messages
      = st.messages
        ++ [{ role := "user", content := jsTrim st.input, sourceUrl := none,
              schemeName := none, factType := none }, errorReplyMessage])
    ∧ errorReplyMessage.content = chatErrorText
    ∧ errorReplyMessage.sourceUrl = none := by
  have hguard : ((jsTrim st.input == "") || st.isLoading) = false := by
    rw [h1, h2]
    rfl
  have happ : ∀ o : SendOutcome,
      (handleSend st o).1.messages
        = st.messages
          ++ [{ role := "user", content := jsTrim st.input, sourceUrl := none,
                schemeName := none, factType := none },
              match o with
              | .success r => assistantMessageOfResponse r
              | .failure => errorReplyMessage] := by
    intro o
    unfold handleSend
    rw [hguard]
    rfl
  refine ⟨happ outcome, ?_, happ .failure, rfl, rfl⟩
  rw [happ outcome, List.length_append]
  rfl

/-- Witness for C9: a failed call on the state with input "hi" appends the
user message and the fixed error reply. -/
theorem claim9_append_two_messages_witness :
    ((jsTrim "hi" == "") = false)
    ∧ (handleSend { messages := [], input := "hi", isLoading := false } .failure).1.messages
      = [{ role := "user", content := jsTrim "hi", sourceUrl := none,
           schemeName := none, factType := none }, errorReplyMessage] :=
  ⟨by decide,
   (claim9_append_two_messages
      { messages := [], input := "hi", isLoading := false } .failure
      (by decide) rfl).1⟩

/-- C10: whenever the trimmed input is empty or a request is in flight,
submitting the chat form is a no-op — the state (in particular the message
list) is unchanged and no request is sent — and the send button is
disabled under exactly the same conditions. -/
theorem claim10_guard_noop (st : ChatState) (outcome : SendOutcome)
    (h : (jsTrim st.input == "") = true ∨ st.isLoading = true) :
    handleSend st outcome = (st, false)
    ∧ sendDisabled st = true
    ∧ (∀ st' : ChatState, sendDisabled st' = true
        ↔ ((jsTrim st'.input == "") = true ∨ st'.isLoading = true)) := by
  have hguard : ((jsTrim st.input == "") || st.isLoading) = true :=
    Bool.or_eq_true_iff.mpr h
  refine ⟨?_, hguard, fun st' => Bool.or_eq_true_iff⟩
  unfold handleSend
  rw [hguard]
  rfl

/-- Witness for C10: with whitespace-only input, `handleSend` leaves the
state untouched, sends nothing, and the send button is disabled. -/
theorem claim10_guard_noop_witness :
    handleSend { messages := [], input := "   ", isLoading := false } .failure
      = ({ messages := [], input := "   ", isLoading := false }, false)
    ∧ sendDisabled { messages := [], input := "   ", isLoading := false } = true :=
  ⟨(claim10_guard_noop { messages := [], input := "   ", isLoading := false }
      .failure (Or.inl (by decide))).1,
   (claim10_guard_noop { messages := [], input := "   ", isLoading := false }
      .failure (Or.inl (by decide))).2.1⟩
